import Mathlib

/-!
Verification of the tinyavif still-image AV1 encoder against its
natural-language specification.

This file contains a shallow embedding of the relevant Rust sources
(util.rs, frame.rs, recon.rs, txfm.rs, av1_encoder.rs, cdf.rs, consts.rs,
enums.rs) and theorems settling the specification claims.

Modelling conventions:
* machine integers are modelled as Nat / Int, with explicit wrapping
  (mod 2^32) where the source deliberately relies on wrapping arithmetic;
* code that can panic (asserts, todo stubs, out-of-range indexing of
  fixed tables) is modelled with Option, returning none exactly on the
  panicking paths;
* the entropy coder itself (entropycode.rs is not among the embedded
  sources) is modelled at the symbol level: encoding functions return the
  list of (symbol, CDF) / (bit, probability) events passed to the writer,
  in emission order, rather than the packed bytes.
-/

namespace Tinyavif

/-! ### util.rs: generic integer helpers -/

/-- util.rs round2 (on unsigned values): divide by 2^n, rounding to
nearest with halves rounded up: (v + ((1 << n) >> 1)) >> n. -/
def round2 (v : Nat) (n : Nat) : Nat :=
  (v + ((1 <<< n) >>> 1)) >>> n

/-- round2 on i32 values (txfm.rs): arithmetic shift right of a
two's-complement value is floor division by the power of two. -/
def round2i (v : Int) (n : Nat) : Int :=
  Int.fdiv (v + (((1 <<< n) >>> 1 : Nat) : Int)) ((2 : Int) ^ n)

/-- Ord::clamp on i32 (used by recon.rs and txfm.rs via util's clamp). -/
def clampI (x lo hi : Int) : Int :=
  if x < lo then lo else if hi < x then hi else x

/-- Fuel-bounded floor-log2, mirroring u64::ilog2 by repeated halving.
The fuel 64 covers every value a 64-bit machine integer can hold.
(The source panics on 0; every embedded call site has a positive
argument.) -/
def ilog2F : Nat → Nat → Nat
  | 0, _ => 0
  | fuel + 1, n => if 2 ≤ n then ilog2F fuel (n / 2) + 1 else 0

/-- util.rs ceil_log2: panics on 0 (none); 1 maps to 0; otherwise
ilog2(n-1) + 1. -/
def ceil_log2 (n : Nat) : Option Nat :=
  if n = 0 then none
  else if n = 1 then some 0
  else some (ilog2F 64 (n - 1) + 1)

/-- util.rs get_prob: the probability mass of one symbol of a CDF with an
implicit trailing 32768.  (All call sites index within bounds, so the
slice indexing is modelled with a defaulted lookup.) -/
def get_prob (symbol : Nat) (cdf : List Nat) : Nat :=
  if symbol = 0 then cdf.getD 0 0
  else if symbol = cdf.length then 32768 - cdf.getD (symbol - 1) 0
  else cdf.getD symbol 0 - cdf.getD (symbol - 1) 0

/-! ### util.rs: write_leb128 -/

/-- The loop of util.rs write_leb128: emit 7 value bits per byte, with the
0x80 continuation flag whenever more bytes follow.  The loop runs while
the value is nonzero; fuel 10 is enough for any 64-bit usize value
(10 * 7 = 70 bits). -/
def leb128_loop : Nat → Nat → List Nat
  | 0, _ => []
  | fuel + 1, v =>
    if v = 0 then []
    else
      ((if 0 < v >>> 7 then 128 else 0) ||| (v &&& 127)) :: leb128_loop fuel (v >>> 7)

/-- util.rs write_leb128: a zero value is written as the single byte 0x00;
otherwise the base-128 loop runs. -/
def write_leb128 (v : Nat) : List Nat :=
  if v = 0 then [0] else leb128_loop 10 v

/-- Little-endian base-128 decoding: 7 value bits per byte, first byte
least significant. -/
def leb128_decode (bs : List Nat) : Nat :=
  bs.foldr (fun b acc => (b % 128) + 128 * acc) 0

/-! ### recon.rs: quantize / dequantize

recon.rs looks the quantizer values up in the tables qindex_to_dc_q and
qindex_to_ac_q (data tables that are not among the embedded sources, with
positive entries); the embedding passes the two looked-up values
explicitly. -/

/-- recon.rs quantize, at one coefficient position: divide by q with
rounding to nearest, halves toward zero: sign(c) * ((|c| + (q-1)/2) / q).
Position (0,0) uses the DC quantizer, all others the AC quantizer. -/
def quantize_at (dc_q ac_q : Nat) (i j : Nat) (coeff : Int) : Int :=
  let q := if i = 0 ∧ j = 0 then dc_q else ac_q
  Int.sign coeff * (((coeff.natAbs + (q - 1) / 2) / q : Nat) : Int)

/-- recon.rs dequantize, at one coefficient position: scale by q. -/
def dequantize_at (dc_q ac_q : Nat) (i j : Nat) (coeff : Int) : Int :=
  let q := if i = 0 ∧ j = 0 then dc_q else ac_q
  coeff * (q : Int)

/-- recon.rs quantize over a coefficient matrix (Array2D::map). -/
def quantize (dc_q ac_q : Nat) (m : List (List Int)) : List (List Int) :=
  m.mapIdx (fun i row => row.mapIdx (fun j c => quantize_at dc_q ac_q i j c))

/-- recon.rs dequantize over a coefficient matrix (Array2D::map). -/
def dequantize (dc_q ac_q : Nat) (m : List (List Int)) : List (List Int) :=
  m.mapIdx (fun i row => row.mapIdx (fun j c => dequantize_at dc_q ac_q i j c))

/-! ### av1_encoder.rs: the EOB class decomposition used by encode_coeffs -/

/-- av1_encoder.rs encode_coeffs: the lowest EOB of a class,
(1 << (eob_class - 1)) + 1. -/
def eob_class_low (c : Nat) : Nat := (1 <<< (c - 1)) + 1

/-- av1_encoder.rs encode_coeffs: the highest EOB of a class,
1 << eob_class. -/
def eob_class_hi (c : Nat) : Nat := 1 <<< c

/-- av1_encoder.rs encode_coeffs: shift used for the first extra EOB bit. -/
def eob_shift (c : Nat) : Nat := c - 2

/-- av1_encoder.rs encode_coeffs: the first extra EOB bit,
((eob - eob_class_low) >> eob_shift) & 1. -/
def eob_extra_bit (eob c : Nat) : Nat :=
  ((eob - eob_class_low c) >>> eob_shift c) &&& 1

/-- av1_encoder.rs encode_coeffs: the literal remainder,
eob - eob_class_low - (extra_bit << eob_shift). -/
def eob_remainder (eob c : Nat) : Nat :=
  eob - eob_class_low c - (eob_extra_bit eob c <<< eob_shift c)

/-! ### av1_encoder.rs: AV1Encoder::new -/

/-- usize::next_multiple_of(8). -/
def next_multiple_of8 (n : Nat) : Nat := ((n + 7) / 8) * 8

structure AV1Encoder where
  y_width : Nat
  y_height : Nat
  uv_width : Nat
  uv_height : Nat
  y_crop_width : Nat
  y_crop_height : Nat
  uv_crop_width : Nat
  uv_crop_height : Nat
  qindex : Nat
deriving DecidableEq

/-- av1_encoder.rs AV1Encoder::new: asserts 0 < width <= 65536,
0 < height <= 65536, qindex != 0 (lossless unsupported), then derives the
padded sizes.  none models an assertion failure. -/
def av1_encoder_new (y_crop_width y_crop_height qindex : Nat) : Option AV1Encoder :=
  if ¬ (0 < y_crop_width ∧ y_crop_width ≤ 65536) then none
  else if ¬ (0 < y_crop_height ∧ y_crop_height ≤ 65536) then none
  else if qindex = 0 then none
  else
    some
      { y_width := next_multiple_of8 y_crop_width
        y_height := next_multiple_of8 y_crop_height
        uv_width := next_multiple_of8 y_crop_width / 2
        uv_height := next_multiple_of8 y_crop_height / 2
        y_crop_width := y_crop_width
        y_crop_height := y_crop_height
        uv_crop_width := round2 y_crop_width 1
        uv_crop_height := round2 y_crop_height 1
        qindex := qindex }

/-! ### frame.rs: Plane and Frame construction -/

structure PlaneZ where
  pixels : List (List Nat)
  crop_width : Nat
  crop_height : Nat
deriving DecidableEq

structure FrameZ where
  planes : List PlaneZ
deriving DecidableEq

/-- Array2D::zeroed rows cols. -/
def array2d_zeroed (rows cols : Nat) : List (List Nat) :=
  List.replicate rows (List.replicate cols 0)

/-- frame.rs Frame::new.  The parameter names are those of the source:
the first parameter is called y_crop_height and the second y_crop_width.
Note the buffers of the U and V planes are built from uv_height =
y_crop_height / 2 and uv_width = y_crop_width / 2 (floored crop halves,
not halves of the padded luma size). -/
def frame_new (y_crop_height y_crop_width : Nat) : FrameZ :=
  let y_width := next_multiple_of8 y_crop_width
  let y_height := next_multiple_of8 y_crop_height
  let uv_crop_width := round2 y_crop_width 1
  let uv_crop_height := round2 y_crop_height 1
  let uv_width := y_crop_width / 2
  let uv_height := y_crop_height / 2
  { planes :=
      [ { pixels := array2d_zeroed y_height y_width
          crop_width := y_crop_width
          crop_height := y_crop_height }
      , { pixels := array2d_zeroed uv_height uv_width
          crop_width := uv_crop_width
          crop_height := uv_crop_height }
      , { pixels := array2d_zeroed uv_height uv_width
          crop_width := uv_crop_width
          crop_height := uv_crop_height } ] }

/-- av1_encoder.rs encode_image (line 177): the frame the encoder
constructs is Frame::new(self.y_crop_width, self.y_crop_height) — the
crop width is passed to the parameter named y_crop_height and vice
versa. -/
def encode_image_frame (y_crop_width y_crop_height : Nat) : FrameZ :=
  frame_new y_crop_width y_crop_height

/-- Pixel accessor for a plane of a frame (out-of-range reads default
to 0; all verified reads are in range). -/
def frame_plane_pix (f : FrameZ) (p : Nat) : Nat → Nat → Nat :=
  fun r c => ((f.planes.getD p ⟨[], 0, 0⟩).pixels.getD r []).getD c 0

/-! ### Helper lemmas for write_leb128 -/

theorem leb128_loop_zero (fuel : Nat) : leb128_loop fuel 0 = [] := by
  cases fuel <;> simp [leb128_loop]

theorem nat_and_127 (v : Nat) : v &&& 127 = v % 128 := by
  have h := Nat.and_pow_two_sub_one_eq_mod v 7
  norm_num at h
  exact h

theorem nat_shr_7 (v : Nat) : v >>> 7 = v / 128 := by
  rw [Nat.shiftRight_eq_div_pow]

theorem lor_128_small (x : Nat) (h : x < 128) : 128 ||| x = 128 + x := by
  have h2 : ∀ y : Fin 128, 128 ||| y.val = 128 + y.val := by decide
  exact h2 ⟨x, h⟩

theorem leb128_decode_cons (b : Nat) (l : List Nat) :
    leb128_decode (b :: l) = b % 128 + 128 * leb128_decode l := rfl

theorem leb128_loop_decode (fuel : Nat) :
    ∀ v, 0 < v → v < 128 ^ fuel →
      leb128_decode (leb128_loop fuel v) = v := by
  induction fuel with
  | zero =>
    intro v h1 h2
    simp at h2
    omega
  | succ n ih =>
    intro v h1 h2
    rw [leb128_loop, if_neg (by omega)]
    by_cases hv : 0 < v >>> 7
    · rw [if_pos hv, leb128_decode_cons]
      have hlt : v >>> 7 < 128 ^ n := by
        rw [nat_shr_7]
        rw [pow_succ] at h2
        omega
      rw [ih (v >>> 7) hv hlt, nat_and_127,
        lor_128_small _ (Nat.mod_lt _ (by norm_num)), nat_shr_7]
      omega
    · rw [if_neg hv]
      have h0 : v >>> 7 = 0 := by omega
      have hsmall : v < 128 := by
        rw [nat_shr_7] at h0
        omega
      rw [h0, leb128_loop_zero, leb128_decode_cons, nat_and_127, Nat.zero_or]
      have hnil : leb128_decode ([] : List Nat) = 0 := rfl
      rw [hnil]
      omega

theorem leb128_loop_shape (fuel : Nat) :
    ∀ v, 0 < v → v < 128 ^ fuel →
      ∃ bs b, leb128_loop fuel v = bs ++ [b] ∧
        (∀ x ∈ bs, 128 ≤ x ∧ x < 256) ∧ b < 128 := by
  induction fuel with
  | zero =>
    intro v h1 h2
    simp at h2
    omega
  | succ n ih =>
    intro v h1 h2
    rw [leb128_loop, if_neg (by omega)]
    by_cases hv : 0 < v >>> 7
    · rw [if_pos hv]
      have hlt : v >>> 7 < 128 ^ n := by
        rw [nat_shr_7]
        rw [pow_succ] at h2
        omega
      obtain ⟨bs, b, hsh, hbs, hb⟩ := ih (v >>> 7) hv hlt
      refine ⟨(128 ||| (v &&& 127)) :: bs, b, by rw [hsh]; rfl, ?_, hb⟩
      intro x hx
      rcases List.mem_cons.mp hx with hx | hx
      · subst hx
        rw [nat_and_127, lor_128_small _ (Nat.mod_lt _ (by norm_num))]
        have := Nat.mod_lt v (y := 128) (by norm_num)
        omega
      · exact hbs x hx
    · rw [if_neg hv]
      have h0 : v >>> 7 = 0 := by omega
      refine ⟨[], 0 ||| (v &&& 127), ?_, by simp, ?_⟩
      · rw [h0, leb128_loop_zero]
        rfl
      · rw [Nat.zero_or, nat_and_127]
        exact Nat.mod_lt _ (by norm_num)

theorem write_leb128_decode (v : Nat) (hv : v < 2 ^ 70) :
    leb128_decode (write_leb128 v) = v := by
  unfold write_leb128
  by_cases h0 : v = 0
  · subst h0
    simp [leb128_decode]
  · rw [if_neg h0]
    exact leb128_loop_decode 10 v (by omega) (by norm_num; omega)

/-- C6: write_leb128 is a bijective encoding on values below 2^56:
decoding its output as little-endian base 128 yields the value back,
distinct values give distinct byte sequences, zero encodes as the single
byte 0x00, and every emitted byte except the last has its high bit set
(with the last below 0x80). -/
theorem c6_leb128_bijection (v : Nat) (hv : v < 2 ^ 56) :
    leb128_decode (write_leb128 v) = v ∧
    (∀ w, w < 2 ^ 56 → write_leb128 w = write_leb128 v → w = v) ∧
    write_leb128 0 = [0] ∧
    (∃ bs b, write_leb128 v = bs ++ [b] ∧
      (∀ x ∈ bs, 128 ≤ x ∧ x < 256) ∧ b < 128) := by
  have hv70 : v < 2 ^ 70 := by omega
  refine ⟨write_leb128_decode v hv70, ?_, by simp [write_leb128], ?_⟩
  · intro w hw he
    have hw70 : w < 2 ^ 70 := by omega
    rw [← write_leb128_decode w hw70, ← write_leb128_decode v hv70, he]
  · unfold write_leb128
    by_cases h0 : v = 0
    · subst h0
      exact ⟨[], 0, by simp, by simp, by norm_num⟩
    · rw [if_neg h0]
      exact leb128_loop_shape 10 v (by omega) (by norm_num; omega)

/-- Witness for C6 at v = 128 (the first two-byte value). -/
theorem c6_witness :
    (128 : Nat) < 2 ^ 56 ∧
    (leb128_decode (write_leb128 128) = 128 ∧
      (∀ w, w < 2 ^ 56 → write_leb128 w = write_leb128 128 → w = 128) ∧
      write_leb128 0 = [0] ∧
      (∃ bs b, write_leb128 128 = bs ++ [b] ∧
        (∀ x ∈ bs, 128 ≤ x ∧ x < 256) ∧ b < 128)) :=
  ⟨by norm_num, c6_leb128_bijection 128 (by norm_num)⟩

/-! ### C7: quantize then dequantize -/

theorem quantize_at_dequantize_at (dc_q ac_q : Nat) (hdc : 1 ≤ dc_q)
    (hac : 1 ≤ ac_q) (i j : Nat) (c : Int) :
    quantize_at dc_q ac_q i j (dequantize_at dc_q ac_q i j c) = c := by
  have hq : 1 ≤ (if i = 0 ∧ j = 0 then dc_q else ac_q) := by
    split <;> assumption
  simp only [quantize_at, dequantize_at]
  generalize (if i = 0 ∧ j = 0 then dc_q else ac_q) = q at hq ⊢
  have h2 : (q - 1) / 2 < q := by omega
  have hsq : Int.sign (q : Int) = 1 :=
    Int.sign_eq_one_of_pos (by exact_mod_cast hq)
  rw [Int.natAbs_mul, Int.natAbs_ofNat, Int.sign_mul, hsq, mul_one,
    Nat.mul_comm, Nat.mul_add_div (by omega), Nat.div_eq_of_lt h2,
    Nat.add_zero, Int.sign_mul_natAbs]

theorem mapIdx_id_of_pointwise {α : Type} (l : List α) :
    ∀ f : Nat → α → α, (∀ i a, f i a = a) → l.mapIdx f = l := by
  induction l with
  | nil => intro f _; exact List.mapIdx_nil
  | cons a t ih =>
    intro f h
    rw [List.mapIdx_cons, h 0 a, ih (fun i => f (i + 1)) (fun i b => h (i + 1) b)]

theorem mapIdx_mapIdx {α : Type} (l : List α) :
    ∀ f g : Nat → α → α,
      (l.mapIdx g).mapIdx f = l.mapIdx (fun i a => f i (g i a)) := by
  induction l with
  | nil => intro f g; simp
  | cons a t ih =>
    intro f g
    rw [List.mapIdx_cons, List.mapIdx_cons, List.mapIdx_cons,
      ih (fun i => f (i + 1)) (fun i => g (i + 1))]

/-- C7: quantize after dequantize is the identity on already-quantized
coefficient arrays, for positive DC/AC quantizer values and coefficients
that stay within i32 after scaling by their quantizer. -/
theorem c7_quantize_dequantize (dc_q ac_q : Nat) (m : List (List Int))
    (hdc : 1 ≤ dc_q) (hac : 1 ≤ ac_q)
    (hbound : ∀ row ∈ m, ∀ c ∈ row, c.natAbs * max dc_q ac_q ≤ 2 ^ 31 - 1) :
    quantize dc_q ac_q (dequantize dc_q ac_q m) = m := by
  unfold quantize dequantize
  rw [mapIdx_mapIdx]
  apply mapIdx_id_of_pointwise
  intro i row
  rw [mapIdx_mapIdx]
  apply mapIdx_id_of_pointwise
  intro j c
  exact quantize_at_dequantize_at dc_q ac_q hdc hac i j c

/-- Witness for C7 at dc_q = 4, ac_q = 5 on a concrete 2x2 array. -/
theorem c7_witness :
    1 ≤ 4 ∧ 1 ≤ 5 ∧
    (∀ row ∈ [[(3 : Int), -2], [0, 7]], ∀ c ∈ row,
      c.natAbs * max 4 5 ≤ 2 ^ 31 - 1) ∧
    quantize 4 5 (dequantize 4 5 [[(3 : Int), -2], [0, 7]]) =
      [[(3 : Int), -2], [0, 7]] :=
  ⟨by norm_num, by norm_num, by decide,
    c7_quantize_dequantize 4 5 [[(3 : Int), -2], [0, 7]]
      (by norm_num) (by norm_num) (by decide)⟩

/-! ### C8: the EOB class decomposition -/

/-- C8: for every eob in [1, 64] with eob_class = ceil_log2(eob) > 1, the
EOB-extra assertion 2^(eob_class-1)+1 <= eob <= 2^eob_class holds, the
extra bit is 0 or 1, the remainder is below 2^(eob_class-2), and the
decomposition reassembles to eob exactly. -/
theorem c8_eob_decomposition (eob c : Nat) (h1 : 1 ≤ eob) (h2 : eob ≤ 64)
    (hc : ceil_log2 eob = some c) (hgt : 1 < c) :
    eob_class_low c ≤ eob ∧ eob ≤ eob_class_hi c ∧
    eob_extra_bit eob c ≤ 1 ∧
    eob_remainder eob c < 2 ^ (c - 2) ∧
    eob_class_low c + (eob_extra_bit eob c <<< eob_shift c) +
      eob_remainder eob c = eob := by
  have hc2 : c = (ceil_log2 eob).getD 0 := by rw [hc]; rfl
  subst hc2
  clear hc
  revert hgt
  interval_cases eob <;> decide

/-- Witness for C8 at eob = 13 (class 4). -/
theorem c8_witness :
    1 ≤ 13 ∧ 13 ≤ 64 ∧ ceil_log2 13 = some 4 ∧ 1 < 4 ∧
    (eob_class_low 4 ≤ 13 ∧ 13 ≤ eob_class_hi 4 ∧
      eob_extra_bit 13 4 ≤ 1 ∧
      eob_remainder 13 4 < 2 ^ (4 - 2) ∧
      eob_class_low 4 + (eob_extra_bit 13 4 <<< eob_shift 4) +
        eob_remainder 13 4 = 13) :=
  ⟨by norm_num, by norm_num, by decide, by norm_num,
    c8_eob_decomposition 13 4 (by norm_num) (by norm_num) (by decide)
      (by norm_num)⟩

/-! ### C9: AV1Encoder::new assertion behaviour -/

/-- C9: AV1Encoder::new(y_crop_width, y_crop_height, qindex) panics
exactly when the width is outside [1, 65536], or the height is outside
[1, 65536], or qindex is 0; for all other (u8) qindex values it returns
normally. -/
theorem c9_av1_encoder_new_panics_iff (w h q : Nat) (hq : q ≤ 255) :
    av1_encoder_new w h q = none ↔
      (w = 0 ∨ 65536 < w ∨ h = 0 ∨ 65536 < h ∨ q = 0) := by
  unfold av1_encoder_new
  split_ifs with h1 h2 h3 <;> simp <;> omega

/-- Witness for C9 at (100, 50, 200): the constructor succeeds. -/
theorem c9_witness :
    (200 : Nat) ≤ 255 ∧
    (av1_encoder_new 100 50 200 = none ↔
      ((100 : Nat) = 0 ∨ 65536 < 100 ∨ (50 : Nat) = 0 ∨ 65536 < 50 ∨
        (200 : Nat) = 0)) :=
  ⟨by norm_num, c9_av1_encoder_new_panics_iff 100 50 200 (by norm_num)⟩

/-! ### C2: the Frame the encoder constructs -/

/-- C2 (code bug): evaluating the frame construction used by
AV1Encoder::encode_image.  For crop 9x9 the U plane's padded buffer is
4x4 (y_crop dimensions floored-halved), while the claimed half of the
padded luma size is 16/2 = 8, and the chroma crop 5x5 even exceeds the
allocated buffer.  For crop 16x8 the Y buffer has 16 rows of 8 columns:
transposed with respect to the claimed 8 rows of 16 columns, because
encode_image passes (width, height) to Frame::new(height, width). -/
theorem c2_frame_new_eval :
    ((encode_image_frame 9 9).planes.getD 1 ⟨[], 0, 0⟩).pixels.length = 4 ∧
    (((encode_image_frame 9 9).planes.getD 1 ⟨[], 0, 0⟩).pixels.getD 0
      []).length = 4 ∧
    next_multiple_of8 9 / 2 = 8 ∧
    ((encode_image_frame 9 9).planes.getD 1 ⟨[], 0, 0⟩).crop_width = 5 ∧
    ((encode_image_frame 9 9).planes.getD 1 ⟨[], 0, 0⟩).crop_height = 5 ∧
    ((encode_image_frame 16 8).planes.getD 0 ⟨[], 0, 0⟩).pixels.length
      = 16 ∧
    (((encode_image_frame 16 8).planes.getD 0 ⟨[], 0, 0⟩).pixels.getD 0
      []).length = 8 ∧
    next_multiple_of8 16 = 16 ∧ next_multiple_of8 8 = 8 ∧
    (4 : Nat) ≠ 8 ∧ (16 : Nat) ≠ 8 := by
  decide

/-! ### frame.rs: Plane::fill_padding

For the padding invariant the pixel buffer is modelled as a total
function indexed by (row, col); the padded size and crop size are carried
alongside. -/

structure PlanePad where
  width : Nat
  height : Nat
  crop_width : Nat
  crop_height : Nat
  pix : Nat → Nat → Nat

/-- frame.rs Plane::fill_padding, first loop: for every row, replicate
the last in-crop pixel of that row over columns [crop_width, width). -/
def fill_padding_cols (p : PlanePad) : Nat → Nat → Nat :=
  (List.range p.height).foldl
    (fun f row =>
      let rightmost := f row (p.crop_width - 1)
      fun r c =>
        if r = row ∧ p.crop_width ≤ c ∧ c < p.width then rightmost
        else f r c)
    p.pix

/-- frame.rs Plane::fill_padding, second loop: every row in
[crop_height, height) is overwritten, column by column, with the pixels
of row crop_height - 1. -/
def fill_padding_rows (p : PlanePad) (f0 : Nat → Nat → Nat) :
    Nat → Nat → Nat :=
  (List.range' p.crop_height (p.height - p.crop_height)).foldl
    (fun f row =>
      (List.range p.width).foldl
        (fun g col => fun r c =>
          if r = row ∧ c = col then g (p.crop_height - 1) col else g r c)
        f)
    f0

/-- frame.rs Plane::fill_padding. -/
def fill_padding (p : PlanePad) : PlanePad :=
  { p with pix := fill_padding_rows p (fill_padding_cols p) }

theorem fill_padding_cols_char (p : PlanePad) (hcw : 1 ≤ p.crop_width) :
    ∀ r c, fill_padding_cols p r c =
      if r < p.height ∧ p.crop_width ≤ c ∧ c < p.width then
        p.pix r (p.crop_width - 1)
      else p.pix r c := by
  unfold fill_padding_cols
  suffices h : ∀ l : List Nat, l.Nodup → ∀ f0 : Nat → Nat → Nat, ∀ r c,
      (l.foldl
        (fun f row =>
          let rightmost := f row (p.crop_width - 1)
          fun r c =>
            if r = row ∧ p.crop_width ≤ c ∧ c < p.width then rightmost
            else f r c)
        f0) r c =
      if r ∈ l ∧ p.crop_width ≤ c ∧ c < p.width then f0 r (p.crop_width - 1)
      else f0 r c by
    intro r c
    rw [h (List.range p.height) (List.nodup_range p.height) p.pix r c]
    simp [List.mem_range]
  intro l
  induction l with
  | nil => intro _ f0 r c; simp
  | cons a t ih =>
    intro hnd f0 r c
    rw [List.foldl_cons]
    rw [List.nodup_cons] at hnd
    rw [ih hnd.2]
    simp only [List.mem_cons]
    split_ifs <;> first | rfl | omega | tauto

theorem fill_padding_inner_char (ch width row : Nat) (hrow : row ≠ ch - 1) :
    ∀ l : List Nat, ∀ g0 : Nat → Nat → Nat, ∀ r c,
      (l.foldl
        (fun g col => fun r c =>
          if r = row ∧ c = col then g (ch - 1) col else g r c)
        g0) r c =
      if r = row ∧ c ∈ l then g0 (ch - 1) c else g0 r c := by
  intro l
  induction l with
  | nil => intro f0 r c; simp
  | cons a t ih =>
    intro g0 r c
    rw [List.foldl_cons, ih]
    simp only [List.mem_cons]
    split_ifs <;> first | rfl | omega | tauto

theorem fill_padding_rows_char (p : PlanePad) (hch : 1 ≤ p.crop_height) :
    ∀ l : List Nat, (∀ x ∈ l, p.crop_height ≤ x) → ∀ f0 : Nat → Nat → Nat,
      ∀ r c,
      (l.foldl
        (fun f row =>
          (List.range p.width).foldl
            (fun g col => fun r c =>
              if r = row ∧ c = col then g (p.crop_height - 1) col
              else g r c)
            f)
        f0) r c =
      if r ∈ l ∧ c < p.width then f0 (p.crop_height - 1) c else f0 r c := by
  intro l
  induction l with
  | nil => intro _ f0 r c; simp
  | cons a t ih =>
    intro hge f0 r c
    have ha : a ≠ p.crop_height - 1 := by
      have := hge a (List.mem_cons_self a t)
      omega
    rw [List.foldl_cons]
    have hstep :
        ((List.range p.width).foldl
          (fun g col => fun r c =>
            if r = a ∧ c = col then g (p.crop_height - 1) col else g r c)
          f0) =
        fun r c =>
          if r = a ∧ c < p.width then f0 (p.crop_height - 1) c
          else f0 r c := by
      funext r' c'
      rw [fill_padding_inner_char p.crop_height p.width a ha
        (List.range p.width) f0 r' c']
      simp [List.mem_range]
    rw [hstep, ih (fun x hx => hge x (List.mem_cons_of_mem a hx))]
    simp only [List.mem_cons]
    split_ifs <;> first | rfl | omega | tauto

theorem fill_padding_char (p : PlanePad) (hcw : 1 ≤ p.crop_width)
    (hch : 1 ≤ p.crop_height) (hch2 : p.crop_height ≤ p.height) :
    ∀ r c, (fill_padding p).pix r c =
      if p.crop_height ≤ r ∧ r < p.height ∧ c < p.width then
        (if p.crop_width ≤ c then p.pix (p.crop_height - 1) (p.crop_width - 1)
         else p.pix (p.crop_height - 1) c)
      else if r < p.height ∧ p.crop_width ≤ c ∧ c < p.width then
        p.pix r (p.crop_width - 1)
      else p.pix r c := by
  intro r c
  show fill_padding_rows p (fill_padding_cols p) r c = _
  unfold fill_padding_rows
  rw [fill_padding_rows_char p hch
    (List.range' p.crop_height (p.height - p.crop_height))
    (by intro x hx; rw [List.mem_range'_1] at hx; omega)
    (fill_padding_cols p) r c]
  have hmem : r ∈ List.range' p.crop_height (p.height - p.crop_height) ↔
      (p.crop_height ≤ r ∧ r < p.height) := by
    rw [List.mem_range'_1]
    omega
  simp only [hmem]
  rw [fill_padding_cols_char p hcw, fill_padding_cols_char p hcw]
  split_ifs <;> first | rfl | omega | tauto

/-- C5: after fill_padding, in-crop pixels are unchanged, the right
padding of an in-crop row replicates its last in-crop pixel, every row
below the crop equals the final last in-crop row including its right
padding, and the corner region replicates the bottom-right in-crop
pixel. -/
theorem c5_fill_padding (p : PlanePad)
    (hcw1 : 1 ≤ p.crop_width) (hcw2 : p.crop_width ≤ p.width)
    (hch1 : 1 ≤ p.crop_height) (hch2 : p.crop_height ≤ p.height) :
    ∀ y x,
      (y < p.crop_height → x < p.crop_width →
        (fill_padding p).pix y x = p.pix y x) ∧
      (y < p.crop_height → p.crop_width ≤ x → x < p.width →
        (fill_padding p).pix y x = p.pix y (p.crop_width - 1)) ∧
      (p.crop_height ≤ y → y < p.height → x < p.crop_width →
        (fill_padding p).pix y x = p.pix (p.crop_height - 1) x) ∧
      (p.crop_height ≤ y → y < p.height → p.crop_width ≤ x → x < p.width →
        (fill_padding p).pix y x =
          p.pix (p.crop_height - 1) (p.crop_width - 1)) := by
  intro y x
  rw [fill_padding_char p hcw1 hch1 hch2 y x]
  refine ⟨?_, ?_, ?_, ?_⟩ <;> intros <;> split_ifs <;> first | rfl | omega

/-- Witness for C5 on a concrete 4x4 buffer with crop 2x3. -/
theorem c5_witness :
    (1 ≤ 2 ∧ 2 ≤ 4 ∧ 1 ≤ 3 ∧ 3 ≤ 4) ∧
    ((fill_padding ⟨4, 4, 2, 3, fun r c => 10 * r + c⟩).pix 1 1 =
        (fun r c => 10 * r + c) 1 1 ∧
      (fill_padding ⟨4, 4, 2, 3, fun r c => 10 * r + c⟩).pix 1 3 =
        (fun r c => 10 * r + c) 1 1 ∧
      (fill_padding ⟨4, 4, 2, 3, fun r c => 10 * r + c⟩).pix 3 0 =
        (fun r c => 10 * r + c) 2 0 ∧
      (fill_padding ⟨4, 4, 2, 3, fun r c => 10 * r + c⟩).pix 3 3 =
        (fun r c => 10 * r + c) 2 1) := by
  refine ⟨by norm_num, ?_, ?_, ?_, ?_⟩
  · exact (c5_fill_padding ⟨4, 4, 2, 3, fun r c => 10 * r + c⟩
      (by norm_num) (by norm_num) (by norm_num) (by norm_num) 1 1).1
      (by norm_num) (by norm_num)
  · exact (c5_fill_padding ⟨4, 4, 2, 3, fun r c => 10 * r + c⟩
      (by norm_num) (by norm_num) (by norm_num) (by norm_num) 1 3).2.1
      (by norm_num) (by norm_num) (by norm_num)
  · exact (c5_fill_padding ⟨4, 4, 2, 3, fun r c => 10 * r + c⟩
      (by norm_num) (by norm_num) (by norm_num) (by norm_num) 3 0).2.2.1
      (by norm_num) (by norm_num) (by norm_num)
  · exact (c5_fill_padding ⟨4, 4, 2, 3, fun r c => 10 * r + c⟩
      (by norm_num) (by norm_num) (by norm_num) (by norm_num) 3 3).2.2.2
      (by norm_num) (by norm_num) (by norm_num) (by norm_num)

/-! ### consts.rs: scan orders and context tables -/

/-- consts.rs default_scan_4x4. -/
def default_scan_4x4 : List (Nat × Nat) :=
  [ (0, 0), (1, 0), (0, 1), (0, 2), (1, 1), (2, 0), (3, 0), (2, 1),
    (1, 2), (0, 3), (1, 3), (2, 2), (3, 1), (3, 2), (2, 3), (3, 3) ]

/-- consts.rs default_scan_8x8. -/
def default_scan_8x8 : List (Nat × Nat) :=
  [ (0, 0), (1, 0), (0, 1), (0, 2), (1, 1), (2, 0), (3, 0), (2, 1),
    (1, 2), (0, 3), (0, 4), (1, 3), (2, 2), (3, 1), (4, 0), (5, 0),
    (4, 1), (3, 2), (2, 3), (1, 4), (0, 5), (0, 6), (1, 5), (2, 4),
    (3, 3), (4, 2), (5, 1), (6, 0), (7, 0), (6, 1), (5, 2), (4, 3),
    (3, 4), (2, 5), (1, 6), (0, 7), (1, 7), (2, 6), (3, 5), (4, 4),
    (5, 3), (6, 2), (7, 1), (7, 2), (6, 3), (5, 4), (4, 5), (3, 6),
    (2, 7), (3, 7), (4, 6), (5, 5), (6, 4), (7, 3), (7, 4), (6, 5),
    (5, 6), (4, 7), (5, 7), (6, 6), (7, 5), (7, 6), (6, 7), (7, 7) ]

/-- consts.rs Sig_Ref_Diff_Offset (DCT_DCT). -/
def Sig_Ref_Diff_Offset : List (Nat × Nat) :=
  [ (0, 1), (1, 0), (1, 1), (0, 2), (2, 0) ]

/-- consts.rs Mag_Ref_Offset. -/
def Mag_Ref_Offset : List (Nat × Nat) :=
  [ (0, 1), (1, 0), (1, 1) ]

/-- consts.rs Coeff_Base_Ctx_Offset_8x8. -/
def Coeff_Base_Ctx_Offset_8x8 : List (List Nat) :=
  [ [0, 1, 6, 6, 21],
    [1, 6, 6, 21, 21],
    [6, 6, 21, 21, 21],
    [6, 21, 21, 21, 21],
    [21, 21, 21, 21, 21] ]

/-! ### The entropy-coding event trace

entropycode.rs is not among the embedded sources; its interface (spec
section 4.2) is modelled by recording each write_symbol / write_bit /
write_bool / write_literal / write_golomb call as an event.  For
write_bit and write_bool the recorded probability is the probability of
the 0 outcome in the 15-bit space, exactly the argument the source
passes. -/

inductive Ev where
  | sym (s : Nat) (cdf : List Nat)
  | bitE (b : Nat) (p : Nat)
  | boolE (b : Bool) (p : Nat)
  | lit (v : Nat) (n : Nat)
  | golomb (v : Nat)
deriving DecidableEq

/-- av1_encoder.rs ModeInfo: per-plane level context and DC sign of one
4x4 unit.  The per-plane arrays are modelled as functions from the plane
index. -/
structure ModeInfo where
  level_ctx : Nat → Nat
  dc_sign : Nat → Int

/-- bytemuck::Zeroable for ModeInfo. -/
def ModeInfo.zeroed : ModeInfo := ⟨fun _ => 0, fun _ => 0⟩

/-- A coefficient Array2D with its dimensions (the entries function is
total; only indices below the dimensions are ever read). -/
structure Arr2DI where
  rows : Nat
  cols : Nat
  entry : Nat → Nat → Int

/-- av1_encoder.rs TileEncoder state: the event trace stands for the
entropy bitstream, and the mode-info grid is a total function together
with its dimensions (mi_rows, mi_cols).  The frame is the recon frame
allocated by encode_image; qindex comes from the parent AV1Encoder. -/
structure TileState where
  events : List Ev
  miRows : Nat
  miCols : Nat
  mode_info : Nat → Nat → ModeInfo
  frame : FrameZ
  qindex : Nat

/-! ### av1_encoder.rs TileEncoder::dc_sign_ctx -/

/-- av1_encoder.rs dc_sign_ctx: todo!() (none) for chroma; for luma, sum
the stored DC signs of the above row and left column of 4x4 units and map
the net sign to a context in 0, 1, 2. -/
def dc_sign_ctx (st : TileState) (plane mi_row mi_col bsize : Nat) :
    Option Nat :=
  if plane ≠ 0 then none
  else
    let above : Int :=
      if 0 < mi_row then
        (List.range' mi_col (min (mi_col + bsize / 4) st.miCols - mi_col)).foldl
          (fun s above_col => s + (st.mode_info (mi_row - 1) above_col).dc_sign plane)
          0
      else 0
    let left : Int :=
      if 0 < mi_col then
        (List.range' mi_row (min (mi_row + bsize / 4) st.miRows - mi_row)).foldl
          (fun s left_row => s + (st.mode_info left_row (mi_col - 1)).dc_sign plane)
          0
      else 0
    let net := above + left
    some (if net = 0 then 0 else if net < 0 then 1 else 2)

/-! ### av1_encoder.rs TileEncoder::encode_coeffs -/

/-- av1_encoder.rs encode_coeffs: CDF rows for coeff_base (8x8 luma,
qctx 3). -/
def coeff_base_cdf : List (List Nat) :=
  [ [7754, 16948, 22142],
    [25670, 32330, 32691],
    [15663, 29225, 31994],
    [9878, 23288, 29158],
    [6419, 17088, 24336],
    [3859, 11003, 17039],
    [27562, 32595, 32725],
    [17575, 30588, 32399],
    [10819, 24838, 30309],
    [7124, 18686, 25916],
    [4479, 12688, 19340],
    [28385, 32476, 32673],
    [15306, 29005, 31938],
    [8937, 21615, 28322],
    [5982, 15603, 22786],
    [3620, 10267, 16136],
    [27280, 32464, 32667],
    [15607, 29160, 32004],
    [9091, 22135, 28740],
    [6232, 16632, 24020],
    [4047, 11377, 17672],
    [29220, 32630, 32718],
    [19650, 31220, 32462],
    [13050, 26312, 30827],
    [9228, 20870, 27468],
    [6146, 15149, 21971],
    [30169, 32481, 32623],
    [17212, 29311, 31554],
    [9911, 21311, 26882],
    [4487, 13314, 20372],
    [2570, 7772, 12889],
    [30924, 32613, 32708],
    [19490, 30206, 32107],
    [11232, 23998, 29276],
    [6769, 17955, 25035],
    [4398, 12623, 19214],
    [30609, 32627, 32722],
    [19370, 30582, 32287],
    [10457, 23619, 29409],
    [6443, 17637, 24834],
    [4645, 13236, 20106],
    [8192, 16384, 24576] ]

/-- av1_encoder.rs encode_coeffs: CDF rows for coeff_br (8x8 luma,
qctx 3). -/
def coeff_br_cdf : List (List Nat) :=
  [ [18274, 24813, 27890],
    [15537, 23149, 27003],
    [9449, 16740, 21827],
    [6700, 12498, 17261],
    [4988, 9866, 14198],
    [4236, 8147, 11902],
    [2867, 5860, 8654],
    [17124, 23171, 26101],
    [20396, 27477, 30148],
    [16573, 24629, 28492],
    [12749, 20846, 25674],
    [10233, 17878, 22818],
    [8525, 15332, 20363],
    [6283, 11632, 16255],
    [20466, 26511, 29286],
    [23059, 29174, 31191],
    [19481, 27263, 30241],
    [15458, 23631, 28137],
    [12416, 20608, 25693],
    [10261, 18011, 23261],
    [8016, 14655, 19666] ]

/-- av1_encoder.rs encode_coeffs: CDF rows for coeff_base_eob. -/
def coeff_base_eob_cdf : List (List Nat) :=
  [ [21457, 31043],
    [31951, 32483],
    [32153, 32562],
    [31473, 32215] ]

/-- av1_encoder.rs encode_coeffs: CDF rows for the first extra EOB bit
(8x8 luma, context eob_class - 2). -/
def first_extra_bit_cdf : List (List Nat) :=
  [ [20238], [21057], [19159], [22337], [20159] ]

/-- av1_encoder.rs encode_coeffs: DC sign CDF rows (qctx 3, luma), by
DC-sign context. -/
def dc_sign_cdf : List (List Nat) :=
  [ [128 * 125], [128 * 102], [128 * 147] ]

/-- The coeff_br loop of encode_coeffs: up to four increment symbols,
each min(abs_value - level, 3), stopping after a symbol below 3. -/
def coeff_br_events (cdfrow : List Nat) (abs_value : Nat) :
    Nat → Nat → List Ev
  | 0, _ => []
  | iters + 1, level =>
    let coeff_br := min (abs_value - level) 3
    Ev.sym coeff_br cdfrow ::
      (if coeff_br < 3 then []
       else coeff_br_events cdfrow abs_value iters (level + coeff_br))

/-- The per-coefficient body of the base-range loop of encode_coeffs
(high-to-low scan index c).  Returns the events for this coefficient, or
none if the abs_value >= 1 assertion of the eob-1 branch fails. -/
def coeff_base_events (txsize num_coeffs eob : Nat)
    (scan : List (Nat × Nat)) (coeffs : Arr2DI) (c : Nat) :
    Option (List Ev) :=
  let rc := scan.getD c (0, 0)
  let row := rc.1
  let col := rc.2
  let coeff := coeffs.entry row col
  let abs_value := coeff.natAbs
  let base : Option (List Ev) :=
    if c = eob - 1 then
      let base_eob_ctx :=
        if c = 0 then 0
        else if c ≤ num_coeffs / 8 then 1
        else if c ≤ num_coeffs / 4 then 2
        else 3
      if abs_value < 1 then none
      else some [Ev.sym (abs_value - 1) (coeff_base_eob_cdf.getD base_eob_ctx [])]
    else
      let base_ctx :=
        if c = 0 then 0
        else
          let mag := Sig_Ref_Diff_Offset.foldl
            (fun m off =>
              let ref_row := row + off.1
              let ref_col := col + off.2
              if ref_row < txsize ∧ ref_col < txsize then
                m + min (coeffs.entry ref_row ref_col).natAbs 3
              else m)
            0
          let mag_part := min (round2 mag 1) 4
          let loc_part :=
            (Coeff_Base_Ctx_Offset_8x8.getD (min row 4) []).getD (min col 4) 0
          mag_part + loc_part
      some [Ev.sym abs_value (coeff_base_cdf.getD base_ctx [])]
  match base with
  | none => none
  | some evs =>
    if 2 < abs_value then
      let br_ctx :=
        let mag := Mag_Ref_Offset.foldl
          (fun m off =>
            let ref_row := row + off.1
            let ref_col := col + off.2
            if ref_row < txsize ∧ ref_col < txsize then
              m + min (coeffs.entry ref_row ref_col).natAbs 15
            else m)
          0
        let mag_part := min (round2 mag 1) 6
        let loc_part :=
          if c = 0 then 0
          else if row < 2 ∧ col < 2 then 7
          else 14
        mag_part + loc_part
      some (evs ++ coeff_br_events (coeff_br_cdf.getD br_ctx []) abs_value 4 3)
    else some evs

/-- The end-of-block scan of encode_coeffs: walk the coefficients in scan
order, recording one past the last nonzero coefficient (eob) and the
cumulative sum of absolute values (culLevel). -/
def eob_cul_fold (scan : List (Nat × Nat)) (coeffs : Arr2DI)
    (num_coeffs : Nat) : Nat × Nat :=
  (List.range num_coeffs).foldl
    (fun (p : Nat × Nat) c =>
      let rc := scan.getD c (0, 0)
      let coeff := coeffs.entry rc.1 rc.2
      (if coeff ≠ 0 then c + 1 else p.1, p.2 + coeff.natAbs))
    (0, 0)

/-- av1_encoder.rs TileEncoder::encode_coeffs.  Returns the emitted event
trace and the updated ModeInfo, or none on any panicking path (todo!()
for non-8x8 blocks and for nonzero chroma coefficients, dimension and
qindex asserts, the EOB range assert, the abs_value assert). -/
def encode_coeffs (st : TileState) (plane mi_row mi_col bsize : Nat)
    (this_mi : ModeInfo) (coeffs : Arr2DI) : Option (List Ev × ModeInfo) :=
  if bsize ≠ 8 then none
  else
    let txsize := if 0 < plane then bsize / 2 else bsize
    let num_coeffs := txsize * txsize
    if coeffs.rows ≠ txsize then none
    else if coeffs.cols ≠ txsize then none
    else
      let scan := if txsize = 4 then default_scan_4x4 else default_scan_8x8
      let ec := eob_cul_fold scan coeffs num_coeffs
      let eob := ec.1
      let culLevel := ec.2
      let mi1 : ModeInfo :=
        { this_mi with
            level_ctx := fun pl =>
              if pl = plane then min culLevel 63 else this_mi.level_ctx pl }
      let all_zero := eob = 0
      if 0 < plane then
        if ¬ all_zero then none
        else some ([Ev.boolE true 2713], mi1)
      else
        if ¬ 120 < st.qindex then none
        else
          let ev_az := Ev.boolE (decide all_zero) 31903
          if all_zero then some ([ev_az], mi1)
          else
            let ev_tx := Ev.sym 1 [6554, 13107, 19661, 26214]
            match ceil_log2 eob with
            | none => none
            | some eob_class =>
              let ev_eob :=
                Ev.sym eob_class [6307, 7541, 12060, 16358, 22553, 27865]
              let extra : Option (List Ev) :=
                if 1 < eob_class then
                  if ¬ (eob_class_low eob_class ≤ eob ∧
                        eob ≤ eob_class_hi eob_class) then none
                  else
                    some
                      [ Ev.sym (eob_extra_bit eob eob_class)
                          (first_extra_bit_cdf.getD (eob_class - 2) [])
                      , Ev.lit (eob_remainder eob eob_class) (eob_class - 2) ]
                else some []
              match extra with
              | none => none
              | some evs_extra =>
                let base := (List.range eob).reverse.foldl
                  (fun (acc : Option (List Ev)) c =>
                    match acc with
                    | none => none
                    | some evs =>
                      match coeff_base_events txsize num_coeffs eob scan
                          coeffs c with
                      | none => none
                      | some evs1 => some (evs ++ evs1))
                  (some [])
                match base with
                | none => none
                | some evs_base =>
                  let dc_coeff := coeffs.entry 0 0
                  let dc_sign_evs : Option (List Ev) :=
                    if dc_coeff ≠ 0 then
                      match dc_sign_ctx st plane mi_row mi_col bsize with
                      | none => none
                      | some ctx =>
                        some [Ev.sym (if dc_coeff < 0 then 1 else 0)
                          (dc_sign_cdf.getD ctx [])]
                    else some []
                  match dc_sign_evs with
                  | none => none
                  | some evs_dc =>
                    let evs_dcg :=
                      if 15 ≤ dc_coeff.natAbs then
                        [Ev.golomb (dc_coeff.natAbs - 15)]
                      else []
                    let mi2 : ModeInfo :=
                      { mi1 with
                          dc_sign := fun pl =>
                            if pl = plane then Int.sign dc_coeff
                            else mi1.dc_sign pl }
                    let evs_ac := (List.range' 1 (eob - 1)).foldl
                      (fun evs c =>
                        let rc := scan.getD c (0, 0)
                        let coeff := coeffs.entry rc.1 rc.2
                        evs ++
                          (if coeff ≠ 0 then
                            [Ev.lit (if coeff < 0 then 1 else 0) 1]
                           else []) ++
                          (if 15 ≤ coeff.natAbs then
                            [Ev.golomb (coeff.natAbs - 15)]
                           else []))
                      []
                    some
                      ( [ev_az, ev_tx, ev_eob] ++ evs_extra ++ evs_base ++
                          evs_dc ++ evs_dcg ++ evs_ac
                      , mi2 )

/-! ### av1_encoder.rs TileEncoder::encode_block -/

/-- av1_encoder.rs encode_block: asserts bsize == 8; emits skip = 0,
intra_frame_y_mode = DC_PRED, uv_mode = DC_PRED; encodes a fixed
placeholder luma coefficient array (a single +1 at (1,0) or -1 at (0,1)
depending on (mi_row + mi_col) % 8) and all-zero 4x4 chroma arrays; then
region-fills the 2x2 mode-info cells.  The recon frame is not touched
(the residual pipeline is a TODO in the source). -/
def encode_block (st : TileState) (mi_row mi_col bsize : Nat) :
    Option TileState :=
  if bsize ≠ 8 then none
  else
    let this_mi := ModeInfo.zeroed
    let evs0 : List Ev :=
      [ Ev.sym 0 [31671]
      , Ev.sym 0 [15588, 17027, 19338, 20218, 20682, 21110, 21825, 23244,
          24189, 28165, 29093, 30466]
      , Ev.sym 0 [10407, 11208, 12900, 13181, 13823, 14175, 14899, 15656,
          15986, 20086, 20995, 22455, 24212] ]
    let y_coeffs : Arr2DI :=
      { rows := 8, cols := 8
        entry := fun i j =>
          if (mi_row + mi_col) % 8 < 4 then
            (if i = 1 ∧ j = 0 then 1 else 0)
          else
            (if i = 0 ∧ j = 1 then -1 else 0) }
    match encode_coeffs st 0 mi_row mi_col bsize this_mi y_coeffs with
    | none => none
    | some (evs1, mi1) =>
      let uv_coeffs : Arr2DI := { rows := 4, cols := 4, entry := fun _ _ => 0 }
      match encode_coeffs st 1 mi_row mi_col bsize mi1 uv_coeffs with
      | none => none
      | some (evs2, mi2) =>
        match encode_coeffs st 2 mi_row mi_col bsize mi2 uv_coeffs with
        | none => none
        | some (evs3, mi3) =>
          if ¬ (mi_row + bsize / 4 ≤ st.miRows ∧
                mi_col + bsize / 4 ≤ st.miCols) then none
          else
            some
              { st with
                  events := st.events ++ evs0 ++ evs1 ++ evs2 ++ evs3
                  mode_info := fun r c =>
                    if mi_row ≤ r ∧ r < mi_row + bsize / 4 ∧
                        mi_col ≤ c ∧ c < mi_col + bsize / 4 then mi3
                    else st.mode_info r c }

/-! ### C10: encode_coeffs on a chroma plane -/

theorem eob_cul_fold_all_zero (scan : List (Nat × Nat)) (coeffs : Arr2DI)
    (n : Nat)
    (h : ∀ c, c < n →
      coeffs.entry (scan.getD c (0, 0)).1 (scan.getD c (0, 0)).2 = 0) :
    eob_cul_fold scan coeffs n = (0, 0) := by
  unfold eob_cul_fold
  suffices haux : ∀ l : List Nat,
      (∀ c ∈ l, coeffs.entry (scan.getD c (0, 0)).1 (scan.getD c (0, 0)).2 = 0) →
      ∀ init : Nat × Nat,
      (l.foldl
        (fun (p : Nat × Nat) c =>
          let rc := scan.getD c (0, 0)
          let coeff := coeffs.entry rc.1 rc.2
          (if coeff ≠ 0 then c + 1 else p.1, p.2 + coeff.natAbs))
        init) = init by
    exact haux (List.range n)
      (fun c hc => h c (List.mem_range.mp hc)) (0, 0)
  intro l
  induction l with
  | nil => intro _ init; rfl
  | cons a t ih =>
    intro hz init
    rw [List.foldl_cons]
    have ha := hz a (List.mem_cons_self a t)
    simp only [ha]
    simp only [ne_eq, not_true_eq_false, if_false, Int.natAbs_zero,
      Nat.add_zero, ite_self]
    rw [ih (fun c hc => hz c (List.mem_cons_of_mem a hc)) init]

theorem eob_cul_fold_fst_pos_aux (scan : List (Nat × Nat))
    (coeffs : Arr2DI) :
    ∀ l : List Nat, ∀ init : Nat × Nat, init.1 ≠ 0 →
      (l.foldl
        (fun (p : Nat × Nat) c =>
          let rc := scan.getD c (0, 0)
          let coeff := coeffs.entry rc.1 rc.2
          (if coeff ≠ 0 then c + 1 else p.1, p.2 + coeff.natAbs))
        init).1 ≠ 0 := by
  intro l
  induction l with
  | nil => intro init h; exact h
  | cons a t ih =>
    intro init h
    rw [List.foldl_cons]
    apply ih
    simp only
    split_ifs with hnz
    · omega
    · exact h

theorem eob_cul_fold_fst_ne_zero (scan : List (Nat × Nat))
    (coeffs : Arr2DI) (n c : Nat) (hc : c < n)
    (hnz : coeffs.entry (scan.getD c (0, 0)).1 (scan.getD c (0, 0)).2 ≠ 0) :
    (eob_cul_fold scan coeffs n).1 ≠ 0 := by
  unfold eob_cul_fold
  suffices haux : ∀ l : List Nat, c ∈ l → ∀ init : Nat × Nat,
      (l.foldl
        (fun (p : Nat × Nat) c =>
          let rc := scan.getD c (0, 0)
          let coeff := coeffs.entry rc.1 rc.2
          (if coeff ≠ 0 then c + 1 else p.1, p.2 + coeff.natAbs))
        init).1 ≠ 0 by
    exact haux (List.range n) (List.mem_range.mpr hc) (0, 0)
  intro l
  induction l with
  | nil => intro hmem; exact absurd hmem (List.not_mem_nil c)
  | cons a t ih =>
    intro hmem init
    rw [List.foldl_cons]
    rcases List.mem_cons.mp hmem with rfl | hmem
    · apply eob_cul_fold_fst_pos_aux
      simp only
      rw [if_pos hnz]
      omega
    · exact ih hmem _

theorem scan_4x4_covers :
    ∀ q : Fin 4 × Fin 4, (q.1.val, q.2.val) ∈ default_scan_4x4 := by
  decide

theorem scan_4x4_coords :
    ∀ c : Fin 16, (default_scan_4x4.getD c.val (0, 0)).1 < 4 ∧
      (default_scan_4x4.getD c.val (0, 0)).2 < 4 := by
  decide

/-- C10: encode_coeffs on a chroma plane of an 8x8 block panics
(todo!()) when any of the 4x4 coefficients is nonzero; when they are all
zero it emits exactly one all_zero = 1 bool symbol with probability 2713
and returns with the block's level_ctx for that plane set to 0 and its
dc_sign for that plane unchanged. -/
theorem c10_chroma_coeffs (st : TileState) (plane mi_row mi_col : Nat)
    (mi : ModeInfo) (f : Nat → Nat → Int) (hp : plane ≠ 0) :
    ((∃ i, i < 4 ∧ ∃ j, j < 4 ∧ f i j ≠ 0) →
      encode_coeffs st plane mi_row mi_col 8 mi ⟨4, 4, f⟩ = none) ∧
    ((∀ i, i < 4 → ∀ j, j < 4 → f i j = 0) →
      (encode_coeffs st plane mi_row mi_col 8 mi ⟨4, 4, f⟩).map
          (fun r => (r.1, r.2.level_ctx plane, r.2.dc_sign plane)) =
        some ([Ev.boolE true 2713], 0, mi.dc_sign plane)) := by
  have hpos : 0 < plane := Nat.pos_of_ne_zero hp
  constructor
  · rintro ⟨i, hi, j, hj, hnz⟩
    obtain ⟨c, hclen, hceq⟩ :=
      List.mem_iff_getElem.mp (scan_4x4_covers (⟨i, hi⟩, ⟨j, hj⟩))
    have hclen16 : c < 16 := by
      have : default_scan_4x4.length = 16 := by decide
      omega
    have hgd : default_scan_4x4.getD c (0, 0) = (i, j) := by
      rw [List.getD_eq_getElem _ _ hclen, hceq]
    have hfst := eob_cul_fold_fst_ne_zero default_scan_4x4 ⟨4, 4, f⟩ 16 c
      hclen16 (by rw [hgd]; exact hnz)
    simp [encode_coeffs, hpos, hfst]
  · intro hz
    have hfold : eob_cul_fold default_scan_4x4 ⟨4, 4, f⟩ 16 = (0, 0) := by
      apply eob_cul_fold_all_zero
      intro c hc
      have hco := scan_4x4_coords ⟨c, hc⟩
      exact hz _ hco.1 _ hco.2
    simp [encode_coeffs, hpos, hfold]

/-- Witness for C10 with the all-zero 4x4 chroma array on plane 1. -/
theorem c10_witness :
    (1 : Nat) ≠ 0 ∧
    ((encode_coeffs
        ⟨[], 2, 2, fun _ _ => ModeInfo.zeroed, ⟨[]⟩, 200⟩
        1 0 0 8 ModeInfo.zeroed ⟨4, 4, fun _ _ => 0⟩).map
      (fun r => (r.1, r.2.level_ctx 1, r.2.dc_sign 1)) =
      some ([Ev.boolE true 2713], 0, ModeInfo.zeroed.dc_sign 1)) :=
  ⟨by norm_num,
    (c10_chroma_coeffs ⟨[], 2, 2, fun _ _ => ModeInfo.zeroed, ⟨[]⟩, 200⟩
      1 0 0 ModeInfo.zeroed (fun _ _ => 0) (by norm_num)).2
      (fun _ _ _ _ => rfl)⟩

/-! ### C1 (amended): encode_block leaves the recon frame unchanged -/

/-- C1 (amended): whenever TileEncoder::encode_block returns, the recon
frame held by the tile encoder is exactly the frame it held before the
call: encode_block emits the block's mode syntax and placeholder
coefficients but performs no prediction, transform, quantization or
reconstruction (the residual pipeline of recon.rs is not invoked). -/
theorem c1_encode_block_frame (st : TileState) (mi_row mi_col bsize : Nat) :
    (encode_block st mi_row mi_col bsize).elim True
      (fun st2 => st2.frame = st.frame) := by
  simp only [encode_block]
  by_cases hb : bsize ≠ 8
  · rw [if_pos hb]
    exact trivial
  · rw [if_neg hb]
    cases h1 : encode_coeffs st 0 mi_row mi_col bsize ModeInfo.zeroed
        { rows := 8, cols := 8
          entry := fun i j =>
            if (mi_row + mi_col) % 8 < 4 then
              (if i = 1 ∧ j = 0 then 1 else 0)
            else
              (if i = 0 ∧ j = 1 then -1 else 0) } with
    | none => exact trivial
    | some r1 =>
      obtain ⟨evs1, mi1⟩ := r1
      dsimp only
      cases h2 : encode_coeffs st 1 mi_row mi_col bsize mi1
          { rows := 4, cols := 4, entry := fun _ _ => 0 } with
      | none => exact trivial
      | some r2 =>
        obtain ⟨evs2, mi2⟩ := r2
        dsimp only
        cases h3 : encode_coeffs st 2 mi_row mi_col bsize mi2
            { rows := 4, cols := 4, entry := fun _ _ => 0 } with
        | none => exact trivial
        | some r3 =>
          obtain ⟨evs3, mi3⟩ := r3
          dsimp only
          by_cases hbnd : mi_row + bsize / 4 ≤ st.miRows ∧
              mi_col + bsize / 4 ≤ st.miCols
          · rw [if_neg (not_not_intro hbnd)]
            exact rfl
          · rw [if_pos hbnd]
            exact trivial

/-! ### enums.rs Partition symbol values -/

def Partition_NONE : Nat := 0
def Partition_HORZ : Nat := 1
def Partition_VERT : Nat := 2
def Partition_SPLIT : Nat := 3
def Partition_HORZ_A : Nat := 4
def Partition_HORZ_B : Nat := 5
def Partition_VERT_A : Nat := 6
def Partition_VERT_B : Nat := 7
def Partition_HORZ_4 : Nat := 8
def Partition_VERT_4 : Nat := 9

/-! ### cdf.rs partition CDF tables (independent transcription) -/

/-- cdf.rs partition_16x16_cdf. -/
def partition_16x16_cdf : List (List Nat) :=
  [ [15597, 20929, 24571, 26706, 27664, 28821, 29601, 30571, 31902],
    [7925, 11043, 16785, 22470, 23971, 25043, 26651, 28701, 29834],
    [5414, 13269, 15111, 20488, 22360, 24500, 25537, 26336, 32117],
    [2662, 6362, 8614, 20860, 23053, 24778, 26436, 27829, 31171] ]

/-- cdf.rs partition_32x32_cdf. -/
def partition_32x32_cdf : List (List Nat) :=
  [ [18462, 20920, 23124, 27647, 28227, 29049, 29519, 30178, 31544],
    [7689, 9060, 12056, 24992, 25660, 26182, 26951, 28041, 29052],
    [6015, 9009, 10062, 24544, 25409, 26545, 27071, 27526, 32047],
    [1394, 2208, 2796, 28614, 29061, 29466, 29840, 30185, 31899] ]

/-- cdf.rs partition_64x64_cdf. -/
def partition_64x64_cdf : List (List Nat) :=
  [ [20137, 21547, 23078, 29566, 29837, 30261, 30524, 30892, 31724],
    [6732, 7490, 9497, 27944, 28250, 28515, 28969, 29630, 30104],
    [5945, 7663, 8348, 28683, 29117, 29749, 30064, 30298, 32238],
    [870, 1212, 1487, 31198, 31394, 31574, 31743, 31881, 32332] ]

/-- The per-size partition CDF table, as the spec refers to it. -/
def partition_table_spec (bsize : Nat) : List (List Nat) :=
  if bsize = 16 then partition_16x16_cdf
  else if bsize = 32 then partition_32x32_cdf
  else if bsize = 64 then partition_64x64_cdf
  else []

/-! ### av1_encoder.rs TileEncoder::encode_partition -/

/-- av1_encoder.rs encode_partition: the all_cdfs table inlined in the
function (16x16, 32x32, 64x64, four contexts each). -/
def partition_all_cdfs : List (List (List Nat)) :=
  [ [ [15597, 20929, 24571, 26706, 27664, 28821, 29601, 30571, 31902],
      [7925, 11043, 16785, 22470, 23971, 25043, 26651, 28701, 29834],
      [5414, 13269, 15111, 20488, 22360, 24500, 25537, 26336, 32117],
      [2662, 6362, 8614, 20860, 23053, 24778, 26436, 27829, 31171] ],
    [ [18462, 20920, 23124, 27647, 28227, 29049, 29519, 30178, 31544],
      [7689, 9060, 12056, 24992, 25660, 26182, 26951, 28041, 29052],
      [6015, 9009, 10062, 24544, 25409, 26545, 27071, 27526, 32047],
      [1394, 2208, 2796, 28614, 29061, 29466, 29840, 30185, 31899] ],
    [ [20137, 21547, 23078, 29566, 29837, 30261, 30524, 30892, 31724],
      [6732, 7490, 9497, 27944, 28250, 28515, 28969, 29630, 30104],
      [5945, 7663, 8348, 28683, 29117, 29749, 30064, 30298, 32238],
      [870, 1212, 1487, 31198, 31394, 31574, 31743, 31881, 32332] ] ]

/-- av1_encoder.rs encode_partition: the bsize_ctx match (panic for
any other size). -/
def partition_bsize_ctx (bsize : Nat) : Option Nat :=
  if bsize = 16 then some 0
  else if bsize = 32 then some 1
  else if bsize = 64 then some 2
  else none

/-- av1_encoder.rs encode_partition: ctx = 2 * left_ctx + above_ctx,
where left_ctx is 1 when mi_col > 0 and above_ctx is 1 when mi_row > 0. -/
def partition_ctx (mi_row mi_col : Nat) : Nat :=
  2 * (if 0 < mi_col then 1 else 0) + (if 0 < mi_row then 1 else 0)

/-- av1_encoder.rs encode_partition: the CDF row used for the partition
symbol at a recursion step of size bsize > 8. -/
def partition_cdf_row (bsize mi_row mi_col : Nat) : Option (List Nat) :=
  (partition_bsize_ctx bsize).map
    (fun b => (partition_all_cdfs.getD b []).getD (partition_ctx mi_row mi_col) [])

/-- av1_encoder.rs encode_partition, sub_cols == 2 branch: the summed
probability of the options folded into PARTITION_SPLIT. -/
def p_split_cols (cdf : List Nat) : Nat :=
  get_prob Partition_VERT cdf + get_prob Partition_SPLIT cdf +
    get_prob Partition_HORZ_A cdf + get_prob Partition_VERT_A cdf +
    get_prob Partition_VERT_B cdf + get_prob Partition_VERT_4 cdf

/-- av1_encoder.rs encode_partition, sub_rows == 2 branch: the summed
probability of the options folded into PARTITION_SPLIT. -/
def p_split_rows (cdf : List Nat) : Nat :=
  get_prob Partition_HORZ cdf + get_prob Partition_SPLIT cdf +
    get_prob Partition_HORZ_A cdf + get_prob Partition_HORZ_B cdf +
    get_prob Partition_VERT_A cdf + get_prob Partition_HORZ_4 cdf

/-- The events one recursion step of encode_partition emits before
recursing (or before encode_block, for bsize 8). -/
def partition_step_events (st : TileState) (mi_row mi_col bsize : Nat) :
    Option (List Ev) :=
  if bsize = 8 then some [Ev.sym 0 [19132, 25510, 30392]]
  else
    let sub_rows := if mi_row + bsize / 8 < st.miRows then 2 else 1
    let sub_cols := if mi_col + bsize / 8 < st.miCols then 2 else 1
    match partition_cdf_row bsize mi_row mi_col with
    | none => none
    | some cdf =>
      if 1 < sub_rows ∧ 1 < sub_cols then
        some [Ev.sym 3 cdf]
      else if 1 < sub_cols then
        some [Ev.bitE 1 (32768 - p_split_cols cdf)]
      else if 1 < sub_rows then
        some [Ev.bitE 1 (32768 - p_split_rows cdf)]
      else
        some []

/-- av1_encoder.rs TileEncoder::encode_partition: emit the step's
partition syntax, then recurse into the in-bounds sub-quadrants (or
encode the block at size 8).  The recursion is driven by fuel; the
encoder starts at size 64, for which fuel 4 suffices. -/
def encode_partition : Nat → TileState → Nat → Nat → Nat → Option TileState
  | 0, _, _, _, _ => none
  | fuel + 1, st, mi_row, mi_col, bsize =>
    match partition_step_events st mi_row mi_col bsize with
    | none => none
    | some evs =>
      let st1 := { st with events := st.events ++ evs }
      if bsize = 8 then
        encode_block st1 mi_row mi_col bsize
      else
        let sub_rows := if mi_row + bsize / 8 < st.miRows then 2 else 1
        let sub_cols := if mi_col + bsize / 8 < st.miCols then 2 else 1
        let offset := bsize / 8
        (List.range sub_rows).foldl
          (fun acc i =>
            match acc with
            | none => none
            | some s =>
              (List.range sub_cols).foldl
                (fun acc2 j =>
                  match acc2 with
                  | none => none
                  | some s2 =>
                    encode_partition fuel s2 (mi_row + i * offset)
                      (mi_col + j * offset) (bsize / 2))
                (some s))
          (some st1)

/-! ### C3: the partition CDF row selection -/

/-- Claim C3 as stated: the CDF row used for the partition symbol at a
size-b step at MI position (r, c) is the size-b table row at context
index 2*(r>0) + (c>0). -/
def C3_claim : Prop :=
  ∀ bsize mi_row mi_col : Nat, (bsize = 16 ∨ bsize = 32 ∨ bsize = 64) →
    partition_cdf_row bsize mi_row mi_col =
      some ((partition_table_spec bsize).getD
        (2 * (if 0 < mi_row then 1 else 0) +
          (if 0 < mi_col then 1 else 0)) [])

/-- Counterexample for C3: at bsize 16, (r, c) = (1, 0) the code uses
context 1 (left edge), not the claimed 2*(r>0) + (c>0) = 2. -/
theorem c3_counterexample : ¬ C3_claim := by
  intro h
  have h2 := h 16 1 0 (Or.inl rfl)
  revert h2
  decide

theorem partition_cdf_row_spec (bsize mi_row mi_col : Nat)
    (hb : bsize = 16 ∨ bsize = 32 ∨ bsize = 64) :
    partition_cdf_row bsize mi_row mi_col =
      some ((partition_table_spec bsize).getD
        (partition_ctx mi_row mi_col) []) := by
  rcases hb with rfl | rfl | rfl <;>
    by_cases h1 : 0 < mi_row <;> by_cases h2 : 0 < mi_col <;>
      simp [partition_cdf_row, partition_bsize_ctx, partition_ctx, h1, h2] <;>
        decide

/-- C3 (amended): the CDF row used for the partition symbol at a size-b
step at MI position (r, c) is the size-b partition CDF table row at
context index 2*(c>0) + (r>0) (left neighbour weighted by 2, above by 1),
and a fully in-bounds step emits PARTITION_SPLIT = 3 under exactly that
row. -/
theorem c3_partition_ctx (st : TileState) (bsize mi_row mi_col : Nat)
    (hb : bsize = 16 ∨ bsize = 32 ∨ bsize = 64) :
    partition_cdf_row bsize mi_row mi_col =
      some ((partition_table_spec bsize).getD
        (2 * (if 0 < mi_col then 1 else 0) +
          (if 0 < mi_row then 1 else 0)) []) ∧
    (mi_row + bsize / 8 < st.miRows → mi_col + bsize / 8 < st.miCols →
      partition_step_events st mi_row mi_col bsize =
        some [Ev.sym 3 ((partition_table_spec bsize).getD
          (2 * (if 0 < mi_col then 1 else 0) +
            (if 0 < mi_row then 1 else 0)) [])]) := by
  have hrow := partition_cdf_row_spec bsize mi_row mi_col hb
  have hctx : partition_ctx mi_row mi_col =
      2 * (if 0 < mi_col then 1 else 0) + (if 0 < mi_row then 1 else 0) :=
    rfl
  rw [hctx] at hrow
  refine ⟨hrow, fun hr hc => ?_⟩
  have hb8 : bsize ≠ 8 := by rcases hb with rfl | rfl | rfl <;> norm_num
  simp [partition_step_events, hb8, hr, hc, hrow]

/-- Witness for C3 at bsize 32, (r, c) = (0, 5) on a 16x16-MI state. -/
theorem c3_witness :
    ((32 : Nat) = 16 ∨ (32 : Nat) = 32 ∨ (32 : Nat) = 64) ∧
    (partition_cdf_row 32 0 5 =
      some ((partition_table_spec 32).getD
        (2 * (if 0 < (5 : Nat) then 1 else 0) +
          (if 0 < (0 : Nat) then 1 else 0)) []) ∧
    (0 + 32 / 8 < (16 : Nat) → 5 + 32 / 8 < (16 : Nat) →
      partition_step_events
          ⟨[], 16, 16, fun _ _ => ModeInfo.zeroed, ⟨[]⟩, 200⟩ 0 5 32 =
        some [Ev.sym 3 ((partition_table_spec 32).getD
          (2 * (if 0 < (5 : Nat) then 1 else 0) +
            (if 0 < (0 : Nat) then 1 else 0)) [])])) :=
  ⟨Or.inr (Or.inl rfl),
    c3_partition_ctx ⟨[], 16, 16, fun _ _ => ModeInfo.zeroed, ⟨[]⟩, 200⟩
      32 0 5 (Or.inr (Or.inl rfl))⟩

/-! ### C4: the derived binary symbol when only the bottom pair of
sub-quadrants is in bounds -/

/-- The sum of get_prob over VERT, SPLIT, HORZ_A, VERT_A, VERT_B and
VERT_4 of the size-b partition CDF row the step uses. -/
def p_split_spec (bsize mi_row mi_col : Nat) : Nat :=
  p_split_cols ((partition_table_spec bsize).getD
    (partition_ctx mi_row mi_col) [])

/-- Claim C4 as stated: in the sub_cols == 2, sub_rows == 1 case exactly
one binary HORZ/SPLIT symbol is emitted, and the probability assigned to
SPLIT equals 32768 - sum; as write_bit's probability argument is the
probability of the 0 (HORZ) outcome, this says the argument equals the
sum itself. -/
def C4_claim : Prop :=
  ∀ (st : TileState) (bsize mi_row mi_col : Nat),
    (bsize = 16 ∨ bsize = 32 ∨ bsize = 64) →
    ¬ (mi_row + bsize / 8 < st.miRows) →
    (mi_col + bsize / 8 < st.miCols) →
    partition_step_events st mi_row mi_col bsize =
      some [Ev.bitE 1 (p_split_spec bsize mi_row mi_col)]

/-- Counterexample for C4: at bsize 16, context 0, the sum of the six
folded-in probabilities is 9351, and the code passes 32768 - 9351 = 23417
as write_bit's probability argument, so the probability assigned to SPLIT
is 9351 = the sum, not 32768 - sum. -/
theorem c4_counterexample : ¬ C4_claim := by
  intro h
  have h2 := h ⟨[], 2, 4, fun _ _ => ModeInfo.zeroed, ⟨[]⟩, 200⟩ 16 0 0
    (Or.inl rfl) (by norm_num) (by norm_num)
  revert h2
  decide

/-- C4 (amended): in the sub_cols == 2, sub_rows == 1 case exactly one
binary symbol choosing between PARTITION_HORZ (0) and PARTITION_SPLIT (1)
is emitted, with write_bit probability argument 32768 - sum (the HORZ
probability), i.e. the probability assigned to the SPLIT outcome is the
sum itself. -/
theorem c4_bottom_pair_split_prob (st : TileState)
    (bsize mi_row mi_col : Nat)
    (hb : bsize = 16 ∨ bsize = 32 ∨ bsize = 64)
    (hrows : ¬ (mi_row + bsize / 8 < st.miRows))
    (hcols : mi_col + bsize / 8 < st.miCols) :
    partition_step_events st mi_row mi_col bsize =
      some [Ev.bitE 1 (32768 - p_split_spec bsize mi_row mi_col)] ∧
    32768 - (32768 - p_split_spec bsize mi_row mi_col) =
      p_split_spec bsize mi_row mi_col := by
  have hrow := partition_cdf_row_spec bsize mi_row mi_col hb
  have hb8 : bsize ≠ 8 := by rcases hb with rfl | rfl | rfl <;> norm_num
  have hle : p_split_spec bsize mi_row mi_col ≤ 32768 := by
    unfold p_split_spec partition_ctx
    rcases hb with rfl | rfl | rfl <;>
      by_cases h1 : 0 < mi_row <;> by_cases h2 : 0 < mi_col <;>
        simp [h1, h2] <;> decide
  constructor
  · simp [partition_step_events, hb8, hrows, hcols, hrow, p_split_spec]
  · omega

/-- Witness for C4 at bsize 16, (r, c) = (0, 0) on a 2x4-MI state. -/
theorem c4_witness :
    (((16 : Nat) = 16 ∨ (16 : Nat) = 32 ∨ (16 : Nat) = 64) ∧
      ¬ ((0 : Nat) + 16 / 8 < 2) ∧ ((0 : Nat) + 16 / 8 < 4)) ∧
    (partition_step_events ⟨[], 2, 4, fun _ _ => ModeInfo.zeroed, ⟨[]⟩, 200⟩
        0 0 16 = some [Ev.bitE 1 (32768 - p_split_spec 16 0 0)] ∧
      32768 - (32768 - p_split_spec 16 0 0) = p_split_spec 16 0 0) :=
  ⟨⟨Or.inl rfl, by norm_num, by norm_num⟩,
    c4_bottom_pair_split_prob
      ⟨[], 2, 4, fun _ _ => ModeInfo.zeroed, ⟨[]⟩, 200⟩ 16 0 0
      (Or.inl rfl) (by norm_num) (by norm_num)⟩

/-! ### txfm.rs: forward and inverse DCT8 and the 2D transform wrappers

The cosine tables (av1_cospi_arr_data) and the shift / stage / range
tables (av1_txfm_stages, av1_txfm_fwd_shift, av1_txfm_fwd_range_mult2,
av1_txfm_inv_shift, av1_txfm_inv_start_range) are data constants that are
not among the embedded sources; the embedding is parameterised by them. -/

structure TxTables where
  cospi : Nat → Nat → Int
  stages : Nat → Nat
  fwd_shift : Nat → Nat → Int
  fwd_range_mult2 : Nat → Nat → Int
  inv_shift : Nat → Nat → Int
  inv_start_range : Nat → Int

/-- Wrap an integer to the i32 range (two's complement). -/
def i32wrap (x : Int) : Int := (x + 2 ^ 31) % 2 ^ 32 - 2 ^ 31

/-- Arithmetic shift right on i32: floor division by 2^n. -/
def shr_i32 (x : Int) (n : Nat) : Int := Int.fdiv x ((2 : Int) ^ n)

/-- txfm.rs half_btf: round2(w0*in0 + w1*in1, cos_bit) computed with
wrapping 32-bit arithmetic, the rounding offset added with wrapping as
well. -/
def half_btf (w0 in0 w1 in1 : Int) (cos_bit : Nat) : Int :=
  let tmp := i32wrap (w0 * in0 + w1 * in1)
  let offset : Int := ((1 <<< (cos_bit - 1) : Nat) : Int)
  shr_i32 (i32wrap (tmp + offset)) cos_bit

/-- txfm.rs clamp_value without its assertion: clamp to the signed range
of range_bits bits. -/
def clampS (value : Int) (range_bits : Nat) : Int :=
  clampI value (-((2 : Int) ^ (range_bits - 1)))
    ((2 : Int) ^ (range_bits - 1) - 1)

/-- txfm.rs clamp_value: asserts 0 < range_bits <= 32 (the assertion
depends only on range_bits, not on the value), then clamps to the signed
range of that many bits. -/
def clamp_value (value : Int) (range_bits : Nat) : Option Int :=
  if ¬ (0 < range_bits ∧ range_bits ≤ 32) then none
  else some (clampS value range_bits)

/-- txfm.rs clamp_array.  As the clamp_value assertion is independent of
the array values, it is checked once up front. -/
def clamp_array (arr : List Int) (bits : Nat) : Option (List Int) :=
  if ¬ (0 < bits ∧ bits ≤ 32) then none
  else some (arr.map (fun v => clampS v bits))

/-- txfm.rs round_shift_array: divide by 2^bits with rounding; negative
bits scale up instead, saturating at the i32 range. -/
def round_shift_array (arr : List Int) (bits : Int) : List Int :=
  if bits = 0 then arr
  else if bits < 0 then
    arr.map (fun x =>
      clampI (x * (2 : Int) ^ (-bits).toNat) (-(2 ^ 31)) (2 ^ 31 - 1))
  else arr.map (fun x => round2i x bits.toNat)

/-- txfm.rs fwd_dct8: the staged forward 8-point DCT butterflies.
Asserts the length is 8 and (via cospi_arr) 10 <= cos_bit <= 13. -/
def fwd_dct8 (t : TxTables) (cos_bit : Nat) (arr : List Int) :
    Option (List Int) :=
  if arr.length ≠ 8 then none
  else if ¬ (10 ≤ cos_bit ∧ cos_bit ≤ 13) then none
  else
    let cospi := t.cospi (cos_bit - 10)
    let a := fun i => arr.getD i 0
    let stage1 : List Int :=
      [ a 0 + a 7, a 1 + a 6, a 2 + a 5, a 3 + a 4,
        -(a 4) + a 3, -(a 5) + a 2, -(a 6) + a 1, -(a 7) + a 0 ]
    let b := fun i => stage1.getD i 0
    let stage2 : List Int :=
      [ b 0 + b 3, b 1 + b 2, -(b 2) + b 1, -(b 3) + b 0, b 4,
        half_btf (-(cospi 32)) (b 5) (cospi 32) (b 6) cos_bit,
        half_btf (cospi 32) (b 6) (cospi 32) (b 5) cos_bit, b 7 ]
    let c := fun i => stage2.getD i 0
    let stage3 : List Int :=
      [ half_btf (cospi 32) (c 0) (cospi 32) (c 1) cos_bit,
        half_btf (-(cospi 32)) (c 1) (cospi 32) (c 0) cos_bit,
        half_btf (cospi 48) (c 2) (cospi 16) (c 3) cos_bit,
        half_btf (cospi 48) (c 3) (-(cospi 16)) (c 2) cos_bit,
        c 4 + c 5, -(c 5) + c 4, -(c 6) + c 7, c 7 + c 6 ]
    let d := fun i => stage3.getD i 0
    let stage4 : List Int :=
      [ d 0, d 1, d 2, d 3,
        half_btf (cospi 56) (d 4) (cospi 8) (d 7) cos_bit,
        half_btf (cospi 24) (d 5) (cospi 40) (d 6) cos_bit,
        half_btf (cospi 24) (d 6) (-(cospi 40)) (d 5) cos_bit,
        half_btf (cospi 56) (d 7) (-(cospi 8)) (d 4) cos_bit ]
    let e := fun i => stage4.getD i 0
    some [e 0, e 4, e 2, e 6, e 1, e 5, e 3, e 7]

/-- txfm.rs inv_dct8: the staged inverse 8-point DCT butterflies, with
clamping to the given stage ranges at stages 3, 4 and 5.  Reading a
missing stage-range entry, or a range outside (0, 32] (the clamp_value
assertion, which is independent of the data values), is a panic (none). -/
def inv_dct8 (t : TxTables) (cos_bit : Nat) (stage_range : List Nat)
    (arr : List Int) : Option (List Int) :=
  if arr.length ≠ 8 then none
  else if ¬ (10 ≤ cos_bit ∧ cos_bit ≤ 13) then none
  else
    match stage_range.get? 3, stage_range.get? 4, stage_range.get? 5 with
    | some r3, some r4, some r5 =>
      if ¬ (0 < r3 ∧ r3 ≤ 32) then none
      else if ¬ (0 < r4 ∧ r4 ≤ 32) then none
      else if ¬ (0 < r5 ∧ r5 ≤ 32) then none
      else
        let cospi := t.cospi (cos_bit - 10)
        let a := fun i => arr.getD i 0
        let stage1 : List Int := [a 0, a 4, a 2, a 6, a 1, a 5, a 3, a 7]
        let b := fun i => stage1.getD i 0
        let stage2 : List Int :=
          [ b 0, b 1, b 2, b 3,
            half_btf (cospi 56) (b 4) (-(cospi 8)) (b 7) cos_bit,
            half_btf (cospi 24) (b 5) (-(cospi 40)) (b 6) cos_bit,
            half_btf (cospi 40) (b 5) (cospi 24) (b 6) cos_bit,
            half_btf (cospi 8) (b 4) (cospi 56) (b 7) cos_bit ]
        let c := fun i => stage2.getD i 0
        let stage3 : List Int :=
          [ half_btf (cospi 32) (c 0) (cospi 32) (c 1) cos_bit,
            half_btf (cospi 32) (c 0) (-(cospi 32)) (c 1) cos_bit,
            half_btf (cospi 48) (c 2) (-(cospi 16)) (c 3) cos_bit,
            half_btf (cospi 16) (c 2) (cospi 48) (c 3) cos_bit,
            clampS (c 4 + c 5) r3, clampS (c 4 - c 5) r3,
            clampS (-(c 6) + c 7) r3, clampS (c 6 + c 7) r3 ]
        let d := fun i => stage3.getD i 0
        let stage4 : List Int :=
          [ clampS (d 0 + d 3) r4, clampS (d 1 + d 2) r4,
            clampS (d 1 - d 2) r4, clampS (d 0 - d 3) r4, d 4,
            half_btf (-(cospi 32)) (d 5) (cospi 32) (d 6) cos_bit,
            half_btf (cospi 32) (d 5) (cospi 32) (d 6) cos_bit, d 7 ]
        let e := fun i => stage4.getD i 0
        some
          [ clampS (e 0 + e 7) r5, clampS (e 1 + e 6) r5,
            clampS (e 2 + e 5) r5, clampS (e 3 + e 4) r5,
            clampS (e 3 - e 4) r5, clampS (e 2 - e 5) r5,
            clampS (e 1 - e 6) r5, clampS (e 0 - e 7) r5 ]
    | _, _, _ => none

/-- Array2D::transpose on a rows x cols matrix. -/
def mat_transpose (m : List (List Int)) (rows cols : Nat) :
    List (List Int) :=
  (List.range cols).map (fun i =>
    (List.range rows).map (fun j => (m.getD j []).getD i 0))

/-- txfm.rs fwd_txfm2d: only the 8x8 path is implemented (4x4 and others
are todo!()).  Column transforms on the transposed matrix, then row
transforms, with the pre/post shifts from the table. -/
def fwd_txfm2d (t : TxTables) (residual : List (List Int))
    (txh txw : Nat) : Option (List (List Int)) :=
  if residual.length ≠ txh then none
  else if ¬ residual.all (fun r => r.length = txw) then none
  else if ¬ (txh = 8 ∧ txw = 8) then none
  else
    let txsz_idx := 1
    let cos_bit_col := 13
    let cos_bit_row := 13
    let shift := t.fwd_shift txsz_idx
    let transposed := mat_transpose residual txh txw
    match transposed.mapM (fun col =>
        (fwd_dct8 t cos_bit_col (round_shift_array col (-(shift 0)))).map
          (fun c2 => round_shift_array c2 (-(shift 1)))) with
    | none => none
    | some cols1 =>
      let back := mat_transpose cols1 txw txh
      back.mapM (fun row =>
        (fwd_dct8 t cos_bit_row row).map
          (fun r1 => round_shift_array r1 (-(shift 2))))

/-- txfm.rs inv_txfm2d: only the 8x8 path is implemented.  Row transforms
first (with clamping to bd+8 bits), then column transforms (with clamping
to max(bd+6, 16) bits).  The stage ranges are derived from the
inv_start_range table entry. -/
def inv_txfm2d (t : TxTables) (residual : List (List Int))
    (txh txw : Nat) : Option (List (List Int)) :=
  if residual.length ≠ txh then none
  else if ¬ residual.all (fun r => r.length = txw) then none
  else if ¬ (txh = 8 ∧ txw = 8) then none
  else
    let txsz_idx := 1
    let cos_bit_col := 12
    let cos_bit_row := 12
    let bd : Nat := 8
    let stages := t.stages txsz_idx
    let shift := t.inv_shift txsz_idx
    let stage_range_row := (List.range stages).map
      (fun _ => (t.inv_start_range txsz_idx + (bd : Int) + 1).toNat)
    let stage_range_col := (List.range stages).map
      (fun _ => (t.inv_start_range txsz_idx + shift 0 + (bd : Int) + 1).toNat)
    match residual.mapM (fun row =>
        match clamp_array row (bd + 8) with
        | none => none
        | some r0 =>
          (inv_dct8 t cos_bit_col stage_range_col r0).map
            (fun r1 => round_shift_array r1 (-(shift 0)))) with
    | none => none
    | some rows1 =>
      let transposed := mat_transpose rows1 txh txw
      match transposed.mapM (fun col =>
          match clamp_array col (max (bd + 6) 16) with
          | none => none
          | some c0 =>
            (inv_dct8 t cos_bit_row stage_range_row c0).map
              (fun c1 => round_shift_array c1 (-(shift 1)))) with
      | none => none
      | some cols1 => some (mat_transpose cols1 txw txh)

/-! ### recon.rs dc_predict -/

/-- The prediction value recon.rs dc_predict computes (and fills the
block with): the rounded average of the available above-row and
left-column pixels, or 128 when neither is available, clamped to
[0, 255]. -/
def dc_predict_value (pix : Nat → Nat → Nat) (y0 x0 h w : Nat) : Nat :=
  let haveLeft := 0 < x0
  let haveAbove := 0 < y0
  let sum :=
    (if haveAbove then
      (List.range w).foldl (fun s j => s + pix (y0 - 1) (x0 + j)) 0
     else 0) +
    (if haveLeft then
      (List.range h).foldl (fun s i => s + pix (y0 + i) (x0 - 1)) 0
     else 0)
  let avg :=
    if haveAbove ∧ haveLeft then (sum + (w + h) / 2) / (w + h)
    else if haveAbove then (sum + w / 2) / w
    else if haveLeft then (sum + h / 2) / h
    else 128
  min avg 255

/-! ### C1: the claimed reconstruction equation for encode_block -/

/-- Chroma subsampling shift for a plane. -/
def c1_sub (p : Nat) : Nat := if p = 0 then 0 else 1

/-- Transform size of the block in plane p (8 luma, 4 chroma). -/
def c1_sz (p : Nat) : Nat := 8 >>> c1_sub p

/-- Top pixel row of the block in plane p. -/
def c1_y0 (p mi_row : Nat) : Nat := (mi_row * 4) >>> c1_sub p

/-- Left pixel column of the block in plane p. -/
def c1_x0 (p mi_col : Nat) : Nat := (mi_col * 4) >>> c1_sub p

/-- The DC prediction of the block in plane p, computed on the recon
frame as recon.rs dc_predict does. -/
def c1_pred (st : TileState) (p mi_row mi_col : Nat) : Nat :=
  dc_predict_value (frame_plane_pix st.frame p) (c1_y0 p mi_row)
    (c1_x0 p mi_col) (c1_sz p) (c1_sz p)

/-- The residual source - pred of the block in plane p for a given
source image. -/
def c1_diff (src : Nat → Nat → Nat → Nat) (st : TileState)
    (p mi_row mi_col : Nat) : List (List Int) :=
  (List.range (c1_sz p)).map (fun i =>
    (List.range (c1_sz p)).map (fun j =>
      ((src p (c1_y0 p mi_row + i) (c1_x0 p mi_col + j) : Int) -
        (c1_pred st p mi_row mi_col : Int))))

/-- Claim C1 as stated: for every 8x8 block processed by encode_block,
every source image, and every admissible instantiation of the transform
tables and (positive) quantizer values, the reconstruction pixels of each
plane afterwards equal clamp(pred + idct(dequant(quant(fdct(source -
pred)))), 0, 255); the pipeline applications are taken as hypotheses
because the 4x4 chroma transforms are todo!() stubs. -/
def C1_claim : Prop :=
  ∀ (t : TxTables) (dc_q ac_q : Nat), 1 ≤ dc_q → 1 ≤ ac_q →
  ∀ (src : Nat → Nat → Nat → Nat) (st : TileState) (mi_row mi_col : Nat)
    (st2 : TileState),
    encode_block st mi_row mi_col 8 = some st2 →
    ∀ p, p < 3 → ∀ fco re : List (List Int),
      fwd_txfm2d t (c1_diff src st p mi_row mi_col) (c1_sz p) (c1_sz p) =
        some fco →
      inv_txfm2d t (dequantize dc_q ac_q (quantize dc_q ac_q fco))
        (c1_sz p) (c1_sz p) = some re →
      ∀ y x, y < c1_sz p → x < c1_sz p →
        ((frame_plane_pix st2.frame p (c1_y0 p mi_row + y)
            (c1_x0 p mi_col + x) : Nat) : Int) =
          clampI ((c1_pred st p mi_row mi_col : Int) +
            (re.getD y []).getD x 0) 0 255

/-- Trivial instantiation of the transform tables (all-zero cosine and
shift data, 6 stages); the refutation below works for every table
choice, since the pipeline of a zero residual is zero throughout. -/
def c1_tables : TxTables :=
  ⟨fun _ _ => 0, fun _ => 6, fun _ _ => 0, fun _ _ => 0, fun _ _ => 0,
    fun _ => 0⟩

/-- The initial tile state of an 8x8 image, as encode_image builds it. -/
def c1_state : TileState :=
  ⟨[], 2, 2, fun _ _ => ModeInfo.zeroed, encode_image_frame 8 8, 200⟩

/-- A source image that is constant 128 (equal to the DC prediction of
the top-left block, making the claimed residual zero). -/
def c1_src : Nat → Nat → Nat → Nat := fun _ _ _ => 128

/-- The zero 8x8 coefficient matrix. -/
def zeros8 : List (List Int) := List.replicate 8 (List.replicate 8 0)

/-- Counterexample for C1: at the top-left block of an 8x8 image with a
constant-128 source, the claimed pipeline value at pixel (0,0) of the Y
plane is clamp(128 + 0) = 128, but encode_block leaves the recon frame
untouched, so the pixel stays 0. -/
theorem c1_counterexample : ¬ C1_claim := by
  intro h
  have hsome : (encode_block c1_state 0 0 8).isSome = true := by decide
  obtain ⟨st2, henc⟩ := Option.isSome_iff_exists.mp hsome
  have hfwd : fwd_txfm2d c1_tables (c1_diff c1_src c1_state 0 0 0)
      (c1_sz 0) (c1_sz 0) = some zeros8 := by decide
  have hinv : inv_txfm2d c1_tables (dequantize 1 1 (quantize 1 1 zeros8))
      (c1_sz 0) (c1_sz 0) = some zeros8 := by decide
  have happ := h c1_tables 1 1 (le_refl 1) (le_refl 1) c1_src c1_state 0 0
    st2 henc 0 (by norm_num) zeros8 zeros8 hfwd hinv 0 0 (by decide)
    (by decide)
  have hmap : (encode_block c1_state 0 0 8).map
      (fun s => frame_plane_pix s.frame 0 (c1_y0 0 0 + 0) (c1_x0 0 0 + 0)) =
      some 0 := by decide
  rw [henc, Option.map_some'] at hmap
  have hL : frame_plane_pix st2.frame 0 (c1_y0 0 0 + 0) (c1_x0 0 0 + 0) =
      0 := Option.some.inj hmap
  have hR : clampI ((c1_pred c1_state 0 0 0 : Int) +
      (zeros8.getD 0 []).getD 0 0) 0 255 = 128 := by decide
  rw [hL, hR] at happ
  exact absurd happ (by decide)

end Tinyavif

